import Mathlib

/-!
Verification of the network-probing subsystem of the DiscordBot repository
(src/DiscordBot.py) against its natural-language specification.

The Python code is shallowly embedded: pure string manipulation is translated
to executable Lean functions over lists of characters, and the effectful
socket layer is abstracted as an environment record whose fields give the
outcome (normal return or raised exception, as an Except value) of each
socket primitive invoked during one call.  The try/except structure of the
source is translated explicitly as pattern matches on those Except values.
-/

set_option autoImplicit false

/-! ### Python string primitives, modelled over lists of characters -/

/-- Characters treated as whitespace by Python str.strip(). -/
def isPySpace (c : Char) : Bool :=
  c = ' ' || c = '\t' || c = '\n' || c = '\x0d' || c = '\x0b' || c = '\x0c'

/-- Model of Python str.strip() on a list of characters: drop leading and
trailing whitespace. -/
def pyStripList (l : List Char) : List Char :=
  ((l.dropWhile isPySpace).reverse.dropWhile isPySpace).reverse

/-- Model of Python str.strip() on strings. -/
def pyStrip (s : String) : String :=
  ⟨pyStripList s.data⟩

/-- Model of Python str.splitlines(): split on a line feed, a carriage
return, or a carriage-return/line-feed pair, with no trailing empty line. -/
def pySplitlines : List Char → List (List Char)
  | [] => []
  | '\x0d' :: '\n' :: rest => [] :: pySplitlines rest
  | c :: rest =>
      if c = '\n' then [] :: pySplitlines rest
      else if c = '\x0d' then [] :: pySplitlines rest
      else
        match pySplitlines rest with
        | [] => [[c]]
        | h :: t => (c :: h) :: t

/-- Model of Python str.lower() on a list of characters (ASCII lowering, as
used on the ASCII WHOIS protocol text). -/
def pyLowerList (l : List Char) : List Char :=
  l.map Char.toLower

/-- Boolean test that the second list begins with the first list. -/
def listStartsWith : List Char → List Char → Bool
  | [], _ => true
  | _ :: _, [] => false
  | p :: ps, c :: cs => p = c && listStartsWith ps cs

/-- Everything after the first colon of a line: this is
line.split(chr 58, 1) taken at index 1 in the source.  On a line with no
colon the source would raise, but every use is guarded by a test that the
line begins with a clause that contains a colon. -/
def afterFirstColon : List Char → List Char
  | [] => []
  | ':' :: rest => rest
  | _ :: rest => afterFirstColon rest

/-- The six characters of the marker that begins a WHOIS referral line. -/
def whoisMarker : List Char :=
  ['w', 'h', 'o', 'i', 's', ':']

/-! ### WHOIS client (simple_whois_query_blocking, src lines 53-94) -/

/-- A Python exception value: its type name and its message. -/
structure PyErr where
  name : String
  msg : String
deriving DecidableEq

/-- Environment of one WHOIS call: the outcome of each socket primitive the
call may perform.  connRoot/sendRoot/recvRoot are the connection to the
root server whois.iana.org on port 43; the Auth fields take the chosen
authoritative server (and the query sent) and model the second hop.  The
recv fields return the accumulated bytes already decoded with
errors=ignore, a decoding that itself never raises. -/
structure WhoisEnv where
  connRoot : Except PyErr Unit
  sendRoot : String → Except PyErr Unit
  recvRoot : Except PyErr String
  connAuth : String → Except PyErr Unit
  sendAuth : String → String → Except PyErr Unit
  recvAuth : String → Except PyErr String

/-- The referral-scanning loop of the source (lines 75-79): walk the lines,
and at the first line whose lowering begins with the whois marker, record
the stripped remainder after the colon and break.  none models the loop
finishing with whois_server still None. -/
def findServerLoop : List (List Char) → Option (List Char)
  | [] => none
  | line :: rest =>
      if listStartsWith whoisMarker (pyLowerList line) then
        some (pyStripList (afterFirstColon line))
      else findServerLoop rest

/-- Referral selection of the source (lines 75-82): run the scanning loop on
the root-server text, then apply the falsiness test of line 80
(if not whois_server), which replaces both None and the empty string with
the fixed fallback server. -/
def pyFindWhoisServer (iana_text : String) : String :=
  match findServerLoop (pySplitlines iana_text.data) with
  | none => "whois.arin.net"
  | some srv => if srv = [] then "whois.arin.net" else ⟨srv⟩

/-- The body of the try block of simple_whois_query_blocking (lines 63-92):
connect to the root server, send the query, read the response, pick the
authoritative server from it, then connect, send and read on the second
hop.  Any raised exception propagates as an Except.error. -/
def whoisBody (env : WhoisEnv) (query : String) : Except PyErr String := do
  env.connRoot
  env.sendRoot query
  let iana_text ← env.recvRoot
  let whois_server := pyFindWhoisServer iana_text
  env.connAuth whois_server
  env.sendAuth whois_server query
  env.recvAuth whois_server

/-- simple_whois_query_blocking (lines 53-94): strip the domain, answer a
fixed text for a falsy (empty) domain, otherwise run the try body and turn
any exception e into the text WHOIS error: name: message.  The outer Except
type records whether the call itself raises; the theorem for the
error-handling claim shows it never does. -/
def simple_whois_query_blocking (env : WhoisEnv) (domain : String) :
    Except PyErr String :=
  if pyStrip domain = "" then Except.ok "Empty domain."
  else
    match whoisBody env (pyStrip domain ++ "\x0d\n") with
    | Except.ok text => Except.ok text
    | Except.error e =>
        Except.ok ("WHOIS error: " ++ e.name ++ ": " ++ e.msg)

/-- Referral selection as the specification words it: the first line whose
lowering begins with the whois marker gives the server as the trimmed
remainder after the colon; only when no such line exists is the fixed
fallback server used. -/
def specFindWhoisServer (iana_text : String) : String :=
  match (pySplitlines iana_text.data).find?
      (fun line => listStartsWith whoisMarker (pyLowerList line)) with
  | some line => ⟨pyStripList (afterFirstColon line)⟩
  | none => "whois.arin.net"

/-- Referral selection as amended: the fallback server is also used when the
referral line exists but its trimmed remainder is empty. -/
def specFindWhoisServerAmended (iana_text : String) : String :=
  match (pySplitlines iana_text.data).find?
      (fun line => listStartsWith whoisMarker (pyLowerList line)) with
  | some line =>
      if pyStripList (afterFirstColon line) = [] then "whois.arin.net"
      else ⟨pyStripList (afterFirstColon line)⟩
  | none => "whois.arin.net"

/-- The scanning loop computes the find-first-matching-line description. -/
theorem findServerLoop_eq_find (ls : List (List Char)) :
    findServerLoop ls =
      (ls.find? (fun line => listStartsWith whoisMarker (pyLowerList line))).map
        (fun line => pyStripList (afterFirstColon line)) := by
  induction ls with
  | nil => rfl
  | cons line rest ih =>
      by_cases h : listStartsWith whoisMarker (pyLowerList line) = true
      · simp [findServerLoop, h, List.find?_cons_of_pos]
      · simp [findServerLoop, h, List.find?_cons_of_neg, ih]

/-- Environment in which the connection to the root WHOIS server raises. -/
def wWhoisErrEnv : WhoisEnv where
  connRoot := Except.error ⟨"ConnectionRefusedError", "connection refused"⟩
  sendRoot := fun _ => Except.ok ()
  recvRoot := Except.ok ""
  connAuth := fun _ => Except.ok ()
  sendAuth := fun _ _ => Except.ok ()
  recvAuth := fun _ => Except.ok ""

/-- Environment whose every socket primitive succeeds and returns no text. -/
def wWhoisOkEnv : WhoisEnv where
  connRoot := Except.ok ()
  sendRoot := fun _ => Except.ok ()
  recvRoot := Except.ok ""
  connAuth := fun _ => Except.ok ()
  sendAuth := fun _ _ => Except.ok ()
  recvAuth := fun _ => Except.ok ""

/-- Claim C4: for every domain and environment of socket outcomes, the WHOIS
lookup never raises to its caller, and every exception raised inside the
try body (connection error on either hop, timeout, and so on) is converted
into a returned text naming the error kind and message. -/
theorem whois_lookup_never_raises (env : WhoisEnv) (domain : String) :
    (∃ s, simple_whois_query_blocking env domain = Except.ok s) ∧
    (∀ e, pyStrip domain ≠ "" →
      whoisBody env (pyStrip domain ++ "\x0d\n") = Except.error e →
      simple_whois_query_blocking env domain =
        Except.ok ("WHOIS error: " ++ e.name ++ ": " ++ e.msg)) := by
  by_cases hd : pyStrip domain = ""
  · exact ⟨⟨"Empty domain.", by simp [simple_whois_query_blocking, hd]⟩,
      fun e hne => absurd hd hne⟩
  · constructor
    · cases hb : whoisBody env (pyStrip domain ++ "\x0d\n") with
      | ok t => exact ⟨t, by simp [simple_whois_query_blocking, hd, hb]⟩
      | error e =>
          exact ⟨"WHOIS error: " ++ e.name ++ ": " ++ e.msg,
            by simp [simple_whois_query_blocking, hd, hb]⟩
    · intro e _ hb
      simp [simple_whois_query_blocking, hd, hb]

/-- Witness for claim C4: with the root connection refused, the lookup for
example.com returns the error-describing text instead of raising. -/
theorem whois_lookup_never_raises_witness :
    simple_whois_query_blocking wWhoisErrEnv "example.com" =
      Except.ok ("WHOIS error: " ++ "ConnectionRefusedError" ++ ": " ++
        "connection refused") :=
  (whois_lookup_never_raises wWhoisErrEnv "example.com").2
    ⟨"ConnectionRefusedError", "connection refused"⟩ (by decide) rfl

/-- Counterexample to claim C5 as stated: on a root-server response that is
the single line given by the whois marker alone, the claim makes the
selected server the empty remainder, but the code falls back to the fixed
default server. -/
theorem whois_referral_counterexample :
    pyFindWhoisServer "whois:" = "whois.arin.net" ∧
    specFindWhoisServer "whois:" = "" ∧
    pyFindWhoisServer "whois:" ≠ specFindWhoisServer "whois:" := by
  refine ⟨by decide, by decide, by decide⟩

/-- Claim C5 as amended: the code selects the authoritative server as the
trimmed remainder after the colon of the first line (case-insensitively)
beginning with the whois marker, and uses the fixed fallback server both
when no such line exists and when the trimmed remainder is empty. -/
theorem whois_referral_selection (text : String) :
    pyFindWhoisServer text = specFindWhoisServerAmended text := by
  unfold pyFindWhoisServer specFindWhoisServerAmended
  rw [findServerLoop_eq_find]
  cases h : (pySplitlines text.data).find?
      (fun line => listStartsWith whoisMarker (pyLowerList line)) with
  | none => rfl
  | some line => simp

/-- Claim C10: a domain that strips to the empty string makes the WHOIS
lookup return the fixed text Empty domain., for every environment of
socket outcomes, hence without any dependence on the network. -/
theorem whois_empty_domain (domain : String) (h : pyStrip domain = "") :
    ∀ env : WhoisEnv,
      simple_whois_query_blocking env domain = Except.ok "Empty domain." := by
  intro env
  simp [simple_whois_query_blocking, h]

/-- Witness for claim C10: a whitespace-only domain in a concrete
environment returns the fixed text. -/
theorem whois_empty_domain_witness :
    simple_whois_query_blocking wWhoisOkEnv " \t " =
      Except.ok "Empty domain." :=
  whois_empty_domain " \t " (by decide) wWhoisOkEnv

/-! ### TCP probe (tcp_connect_latency, src lines 20-51) -/

/-- The triple returned by tcp_connect_latency: the success flag, the
latency in milliseconds when successful, and the resolved address. -/
structure ProbeRes where
  success : Bool
  latency : Option ℚ
  ip : Option String
deriving DecidableEq

/-- One entry of the list returned by getaddrinfo: the address family and
the first component of the socket address. -/
structure AddrInfo where
  family : Nat
  ip : String
deriving DecidableEq

/-- Environment of one tcp_connect_latency call.  getaddrinfo gives the
resolution outcome; the per-iteration socket primitives (socket creation
with settimeout, the blocking connect, and the two close sites) are keyed
by the index of the address-list iteration in which they run; clock gives
the value of the event-loop monotonic clock at its k-th reading. -/
structure TCPEnv where
  getaddrinfo : Except String (List AddrInfo)
  sockNew : Nat → Except String Unit
  connect : Nat → Except String Unit
  closeOnSuccess : Nat → Except String Unit
  closeOnFailure : Nat → Except String Unit
  clock : Nat → ℚ

/-- The body of the inner try block (lines 36-43) at iteration k: create the
socket, connect, close, then read the clock and return the success triple.
The clock is read exactly twice in any call of tcp_connect_latency, at the
start (reading 0) and here on success (reading 1), so the elapsed seconds
are clock 1 - clock 0, scaled by 1000 to milliseconds. -/
def connBody (env : TCPEnv) (info : AddrInfo) (k : Nat) :
    Except String ProbeRes := do
  env.sockNew k
  env.connect k
  env.closeOnSuccess k
  pure ⟨true, some ((env.clock 1 - env.clock 0) * 1000), some info.ip⟩

/-- The for loop over getaddrinfo entries (lines 33-50): run the body; on
any exception, close the socket (swallowing a close exception, line 45-49)
and continue with the next entry; when the entries run out, return the
failure triple (line 51). -/
def connLoop (env : TCPEnv) : List AddrInfo → Nat → Except String ProbeRes
  | [], _ => Except.ok ⟨false, none, none⟩
  | info :: rest, k =>
      match connBody env info k with
      | Except.ok r => Except.ok r
      | Except.error _ =>
          match env.closeOnFailure k with
          | Except.ok _ => connLoop env rest (k + 1)
          | Except.error _ => connLoop env rest (k + 1)

/-- tcp_connect_latency (lines 20-51): resolve the host, returning the
failure triple if resolution raises (lines 28-31), then try each resolved
address in order.  The outer Except type records whether the call itself
raises; the theorem for the error-handling claim shows it never does. -/
def tcp_connect_latency (env : TCPEnv) : Except String ProbeRes :=
  match env.getaddrinfo with
  | Except.error _ => Except.ok ⟨false, none, none⟩
  | Except.ok infos => connLoop env infos 0

/-! ### Per-port scan probe (scan_port, src lines 171-180) -/

/-- Environment of one scan_port call: the outcome of socket creation with
settimeout, of connect_ex (which returns an error code but may also raise,
for example on resolution failure), and of close. -/
structure ScanSockEnv where
  sockNew : Except String Unit
  connect_ex : Except String Int
  closeSock : Except String Unit

/-- The body of the try block of scan_port (lines 174-178): create the
socket, call connect_ex, close, and report the port as open exactly when
the returned code is zero. -/
def scan_port_body (env : ScanSockEnv) (port : Int) :
    Except String (Int × Bool) := do
  env.sockNew
  let r ← env.connect_ex
  env.closeSock
  pure (port, r == 0)

/-- scan_port (lines 171-180): the bare except arm turns any exception into
the result (port, False). -/
def scan_port (env : ScanSockEnv) (port : Int) : Except String (Int × Bool) :=
  match scan_port_body env port with
  | Except.ok v => Except.ok v
  | Except.error _ => Except.ok (port, false)

/-- Every result an iteration of the address loop can return normally is
either the failure triple or a success triple carrying the elapsed-clock
latency and a resolved address. -/
theorem connLoop_shape (env : TCPEnv) (infos : List AddrInfo) (k : Nat)
    (r : ProbeRes) (h : connLoop env infos k = Except.ok r) :
    r = ⟨false, none, none⟩ ∨
      ∃ ip, r = ⟨true, some ((env.clock 1 - env.clock 0) * 1000), some ip⟩ := by
  induction infos generalizing k with
  | nil =>
      left
      simpa [connLoop] using h.symm
  | cons info rest ih =>
      rw [connLoop] at h
      cases hb : connBody env info k with
      | ok r₀ =>
          rw [hb] at h
          right
          refine ⟨info.ip, ?_⟩
          have hr : r = r₀ := by
            cases h
            rfl
          rw [connBody] at hb
          cases h1 : env.sockNew k <;> rw [h1] at hb <;>
            simp [Bind.bind, Except.bind] at hb
          cases h2 : env.connect k <;> rw [h2] at hb <;>
            simp [Except.bind] at hb
          cases h3 : env.closeOnSuccess k <;> rw [h3] at hb <;>
            simp [Except.bind, Pure.pure, Except.pure] at hb
          rw [hr, ← hb]
      | error e =>
          rw [hb] at h
          cases hc : env.closeOnFailure k <;> rw [hc] at h <;>
            exact ih (k + 1) h

/-- Every result tcp_connect_latency can return normally is either the
failure triple or a success triple with latency and resolved address. -/
theorem tcp_connect_latency_shape (env : TCPEnv) (r : ProbeRes)
    (h : tcp_connect_latency env = Except.ok r) :
    r = ⟨false, none, none⟩ ∨
      ∃ ip, r = ⟨true, some ((env.clock 1 - env.clock 0) * 1000), some ip⟩ := by
  rw [tcp_connect_latency] at h
  cases hg : env.getaddrinfo with
  | error e =>
      rw [hg] at h
      left
      cases h
      rfl
  | ok infos =>
      rw [hg] at h
      exact connLoop_shape env infos 0 r h

/-- The address loop always returns normally, whatever the socket
primitives do. -/
theorem connLoop_never_raises (env : TCPEnv) (infos : List AddrInfo)
    (k : Nat) : ∃ r, connLoop env infos k = Except.ok r := by
  induction infos generalizing k with
  | nil => exact ⟨⟨false, none, none⟩, rfl⟩
  | cons info rest ih =>
      simp only [connLoop]
      cases hb : connBody env info k with
      | ok r => exact ⟨r, rfl⟩
      | error e =>
          cases hc : env.closeOnFailure k with
          | ok u => exact ih (k + 1)
          | error s => exact ih (k + 1)

/-- Claim C3: for every environment of socket outcomes (refused connection,
timeout, unreachable host, resolution failure, and any other raising
primitive) and every port, neither the single-target probe nor the per-port
scan probe raises to its caller: both always return a result normally. -/
theorem probes_never_raise (e1 : TCPEnv) (e2 : ScanSockEnv) (port : Int) :
    (∃ r, tcp_connect_latency e1 = Except.ok r) ∧
    (∃ v, scan_port e2 port = Except.ok v) := by
  constructor
  · rw [tcp_connect_latency]
    cases hg : e1.getaddrinfo with
    | error e => exact ⟨⟨false, none, none⟩, rfl⟩
    | ok infos => exact connLoop_never_raises e1 infos 0
  · rw [scan_port]
    cases hb : scan_port_body e2 port with
    | ok v => exact ⟨v, rfl⟩
    | error e => exact ⟨(port, false), rfl⟩

/-- Claim C7: a probe result reports a latency only when the success flag is
true, and a failure result carries neither a latency nor a resolved
address. -/
theorem probe_failure_reports_nothing (env : TCPEnv) (r : ProbeRes)
    (h : tcp_connect_latency env = Except.ok r) :
    (r.latency.isSome → r.success = true) ∧
    (r.success = false → r.latency = none ∧ r.ip = none) := by
  rcases tcp_connect_latency_shape env r h with hf | ⟨ip, hs⟩
  · rw [hf]
    exact ⟨fun hl => by simp at hl, fun _ => ⟨rfl, rfl⟩⟩
  · rw [hs]
    exact ⟨fun _ => rfl, fun hc => by simp at hc⟩

/-- Environment in which resolution itself raises, so the probe fails. -/
def wTCPFailEnv : TCPEnv where
  getaddrinfo := Except.error "gaierror"
  sockNew := fun _ => Except.ok ()
  connect := fun _ => Except.ok ()
  closeOnSuccess := fun _ => Except.ok ()
  closeOnFailure := fun _ => Except.ok ()
  clock := fun _ => 0

/-- Witness for claim C7: a concrete failing probe returns the failure
triple, and the theorem applies to it. -/
theorem probe_failure_reports_nothing_witness :
    tcp_connect_latency wTCPFailEnv = Except.ok ⟨false, none, none⟩ ∧
    ((ProbeRes.mk false none none).latency = none ∧
      (ProbeRes.mk false none none).ip = none) :=
  ⟨rfl, (probe_failure_reports_nothing wTCPFailEnv ⟨false, none, none⟩ rfl).2 rfl⟩

/-- Claim C8: on a successful probe the reported latency is the elapsed
wall-clock time in milliseconds, from the clock reading taken at probe
start to the reading taken when the connection has been established, and
under a monotone clock it is non-negative. -/
theorem probe_latency_elapsed (env : TCPEnv) (hm : Monotone env.clock)
    (r : ProbeRes) (h : tcp_connect_latency env = Except.ok r)
    (hs : r.success = true) :
    r.latency = some ((env.clock 1 - env.clock 0) * 1000) ∧
    ∀ l, r.latency = some l → 0 ≤ l := by
  rcases tcp_connect_latency_shape env r h with hf | ⟨ip, he⟩
  · rw [hf] at hs
    exact absurd hs (by simp)
  · rw [he]
    have h01 : env.clock 0 ≤ env.clock 1 := hm (Nat.zero_le 1)
    refine ⟨rfl, ?_⟩
    intro l hl
    have hl2 : l = (env.clock 1 - env.clock 0) * 1000 :=
      Option.some_injective _ hl.symm
    rw [hl2]
    exact mul_nonneg (sub_nonneg.mpr h01) (by norm_num)

/-- Environment of a probe whose first candidate address connects at once,
under the identity clock. -/
def wTCPOkEnv : TCPEnv where
  getaddrinfo := Except.ok [⟨2, "93.184.216.34"⟩]
  sockNew := fun _ => Except.ok ()
  connect := fun _ => Except.ok ()
  closeOnSuccess := fun _ => Except.ok ()
  closeOnFailure := fun _ => Except.ok ()
  clock := fun n => (n : ℚ)

/-- The identity clock of the successful witness environment is monotone. -/
theorem wTCPOkEnv_clock_mono : Monotone wTCPOkEnv.clock :=
  fun _ _ hab => Nat.cast_le.mpr hab

/-- Witness for claim C8: the concrete successful probe reports exactly the
elapsed clock in milliseconds, and that latency is non-negative. -/
theorem probe_latency_elapsed_witness :
    tcp_connect_latency wTCPOkEnv =
      Except.ok ⟨true, some ((wTCPOkEnv.clock 1 - wTCPOkEnv.clock 0) * 1000),
        some "93.184.216.34"⟩ ∧
    0 ≤ (wTCPOkEnv.clock 1 - wTCPOkEnv.clock 0) * 1000 :=
  ⟨rfl,
    (probe_latency_elapsed wTCPOkEnv wTCPOkEnv_clock_mono
        ⟨true, some ((wTCPOkEnv.clock 1 - wTCPOkEnv.clock 0) * 1000),
          some "93.184.216.34"⟩ rfl rfl).2
      ((wTCPOkEnv.clock 1 - wTCPOkEnv.clock 0) * 1000) rfl⟩

/-! ### Reachability resolver (cmd_ping, src lines 100-148) -/

/-- Environment of one cmd_ping invocation.  probe host port gives the
result of the call tcp_connect_latency host port (a call that never raises,
by the theorem for the error-handling claim, so it is a total function
here); isIP target tells whether ipaddress.ip_address target succeeds
(line 126); getaddrinfo target gives the first components of the socket
addresses resolved on line 134, or none when resolution raises. -/
structure PingEnv where
  probe : String → Int → ProbeRes
  isIP : String → Bool
  getaddrinfo : String → Option (List String)

/-- The reply cmd_ping sends: reached directly on a port, reached through a
resolved candidate address on a port, or not reachable on the attempted
port list. -/
inductive PingOutcome
  | reachedDirect (ip : Option String) (port : Int) (latency : Option ℚ)
  | reachedResolved (ip : Option String) (port : Int) (latency : Option ℚ)
  | unreached (ports : List Int)
deriving DecidableEq

/-- The port-list selection of lines 111-114.  The test if port uses Python
truthiness: a supplied port equal to zero is falsy and selects the default
list, exactly as a missing port does. -/
def ports_to_try (port : Option Int) : List Int :=
  match port with
  | some p => if p = 0 then [80, 443, 53, 22] else [p]
  | none => [80, 443, 53, 22]

/-- The direct-probe loop of lines 118-122: probe each port in order and
stop at the first success, returning the successful port and its result. -/
def firstSuccess (pr : Int → ProbeRes) : List Int → Option (Int × ProbeRes)
  | [] => none
  | p :: ps =>
      if (pr p).success then some (p, pr p) else firstSuccess pr ps

/-- Order-preserving removal of duplicates, first occurrence kept: this is
list(dict.fromkeys(resolved_ips)) of line 138.  The first argument is the
remaining input, the second the keys already inserted. -/
def dedupFirstAux : List String → List String → List String
  | [], _ => []
  | a :: l, seen =>
      if a ∈ seen then dedupFirstAux l seen
      else a :: dedupFirstAux l (a :: seen)

/-- Deduplicated candidate-address list, first-seen order preserved. -/
def dedupFirst (l : List String) : List String :=
  dedupFirstAux l []

/-- The fallback loop of lines 139-144: for each resolved candidate address
in order, for each port in order, probe, and stop at the first success. -/
def firstSuccessOver (env : PingEnv) :
    List String → List Int → Option (String × Int × ProbeRes)
  | [], _ => none
  | ip :: ips, ports =>
      match firstSuccess (env.probe ip) ports with
      | some pr => some (ip, pr.1, pr.2)
      | none => firstSuccessOver env ips ports

/-- cmd_ping (lines 100-148): select the port list, try the literal target
on each port, and on failure of all of them, when the target is not a
literal IP address, resolve it (a raising resolution is swallowed by the
except of line 145) and try each deduplicated candidate on each port;
otherwise report the target unreached on the attempted ports. -/
def cmd_ping (env : PingEnv) (target : String) (port : Option Int) :
    PingOutcome :=
  match firstSuccess (env.probe target) (ports_to_try port) with
  | some pr => PingOutcome.reachedDirect pr.2.ip pr.1 pr.2.latency
  | none =>
      if env.isIP target then PingOutcome.unreached (ports_to_try port)
      else
        match env.getaddrinfo target with
        | none => PingOutcome.unreached (ports_to_try port)
        | some addrs =>
            match firstSuccessOver env (dedupFirst addrs) (ports_to_try port) with
            | some q => PingOutcome.reachedResolved q.2.2.ip q.2.1 q.2.2.latency
            | none => PingOutcome.unreached (ports_to_try port)

/-- The port list exactly as claim C1 states it: the supplied port alone
whenever the caller supplied one. -/
def claim_portList (port : Option Int) : List Int :=
  match port with
  | some p => [p]
  | none => [80, 443, 53, 22]

/-- The reachability algorithm as the specification words it, with the
port-list rule amended to ignore a supplied port of zero: the first success
of probing the literal target over the port list wins; only when every such
probe fails and the target is not a literal IP address is the target
resolved, and the first success over candidate-port pairs (candidates
outermost, in order) wins; otherwise the attempted ports are reported
unreached. -/
def spec_check (env : PingEnv) (target : String) (port : Option Int) :
    PingOutcome :=
  match (ports_to_try port).find? (fun p => (env.probe target p).success) with
  | some p =>
      PingOutcome.reachedDirect (env.probe target p).ip p
        (env.probe target p).latency
  | none =>
      if env.isIP target then PingOutcome.unreached (ports_to_try port)
      else
        match env.getaddrinfo target with
        | none => PingOutcome.unreached (ports_to_try port)
        | some addrs =>
            match ((dedupFirst addrs).flatMap
                (fun ip => (ports_to_try port).map (fun p => (ip, p)))).find?
                (fun q => (env.probe q.1 q.2).success) with
            | some q =>
                PingOutcome.reachedResolved (env.probe q.1 q.2).ip q.2
                  (env.probe q.1 q.2).latency
            | none => PingOutcome.unreached (ports_to_try port)

/-- The direct-probe loop computes the find-first-successful-port
description. -/
theorem firstSuccess_eq_find (pr : Int → ProbeRes) (l : List Int) :
    firstSuccess pr l =
      (l.find? (fun p => (pr p).success)).map (fun p => (p, pr p)) := by
  induction l with
  | nil => rfl
  | cons p ps ih =>
      by_cases h : (pr p).success = true
      · simp [firstSuccess, h, List.find?_cons_of_pos]
      · simp [firstSuccess, h, List.find?_cons_of_neg, ih]

/-- The fallback loop computes the find-first-successful-pair description
over the candidate-port pairs, candidates outermost. -/
theorem firstSuccessOver_eq_find (env : PingEnv) (ips : List String)
    (ports : List Int) :
    firstSuccessOver env ips ports =
      ((ips.flatMap (fun ip => ports.map (fun p => (ip, p)))).find?
          (fun q => (env.probe q.1 q.2).success)).map
        (fun q => (q.1, q.2, env.probe q.1 q.2)) := by
  induction ips with
  | nil => rfl
  | cons ip ips ih =>
      rw [firstSuccessOver, firstSuccess_eq_find, List.flatMap_cons,
        List.find?_append, List.find?_map]
      have hc : ((fun q : String × Int => (env.probe q.1 q.2).success) ∘
          (fun p : Int => (ip, p))) = fun p => (env.probe ip p).success := by
        funext p
        rfl
      rw [hc]
      cases hfp : ports.find? (fun p => (env.probe ip p).success) with
      | some p => simp
      | none => simp [ih]

/-- Environment in which every probe fails and the target parses as a
literal IP address. -/
def wPingFailEnv : PingEnv where
  probe := fun _ _ => ⟨false, none, none⟩
  isIP := fun _ => true
  getaddrinfo := fun _ => none

/-- Counterexample to claim C1 as stated: a caller-supplied port of zero is
falsy in Python, so the code scans the default list, not the singleton
list of the supplied port that the claim prescribes. -/
theorem ping_port_zero_counterexample :
    ports_to_try (some 0) ≠ claim_portList (some 0) ∧
    cmd_ping wPingFailEnv "203.0.113.9" (some 0) =
      PingOutcome.unreached [80, 443, 53, 22] :=
  ⟨by decide, rfl⟩

/-- Claim C1 as amended: with a supplied port of zero treated like a missing
port, the reachability check follows the specified algorithm exactly:
probe the literal target over the port list in order and stop at the first
success; only when all those probes fail and the target is not a literal IP
address, resolve the target and probe each candidate address on each port
in order, stopping at the first success; otherwise report the attempted
ports unreached. -/
theorem cmd_ping_follows_spec (env : PingEnv) (target : String)
    (port : Option Int) :
    cmd_ping env target port = spec_check env target port := by
  rw [cmd_ping, spec_check, firstSuccess_eq_find]
  cases h1 : (ports_to_try port).find? (fun p => (env.probe target p).success) with
  | some p => simp
  | none =>
      simp only [Option.map_none']
      by_cases hip : env.isIP target = true
      · simp [hip]
      · simp only [hip, Bool.false_eq_true, if_false]
        cases hg : env.getaddrinfo target with
        | none => rfl
        | some addrs =>
            simp only [firstSuccessOver_eq_find]
            cases hf : ((dedupFirst addrs).flatMap
                (fun ip => (ports_to_try port).map (fun p => (ip, p)))).find?
                (fun q => (env.probe q.1 q.2).success) with
            | some q => simp
            | none => simp

/-- Index of the first occurrence of x in a list (length of the list when x
is absent). -/
def firstIdx (x : String) : List String → Nat
  | [] => 0
  | a :: l => if a = x then 0 else firstIdx x l + 1

/-- The first occurrence of an element in a list headed by itself is at the
head. -/
theorem firstIdx_cons_self (a : String) (l : List String) :
    firstIdx a (a :: l) = 0 := by
  simp [firstIdx]

/-- The first occurrence past a different head is one deeper. -/
theorem firstIdx_cons_ne (x a : String) (l : List String) (h : a ≠ x) :
    firstIdx x (a :: l) = firstIdx x l + 1 := by
  simp [firstIdx, h]

/-- Membership in the deduplication: exactly the input elements not already
inserted. -/
theorem mem_dedupFirstAux (l : List String) :
    ∀ (seen : List String) (x : String),
      x ∈ dedupFirstAux l seen ↔ x ∈ l ∧ x ∉ seen := by
  induction l with
  | nil => intro seen x; simp [dedupFirstAux]
  | cons a l ih =>
      intro seen x
      by_cases ha : a ∈ seen
      · rw [dedupFirstAux, if_pos ha, ih]
        constructor
        · rintro ⟨hx, hxs⟩
          exact ⟨List.mem_cons_of_mem a hx, hxs⟩
        · rintro ⟨hx, hxs⟩
          refine ⟨?_, hxs⟩
          rcases List.mem_cons.mp hx with rfl | hx
          · exact absurd ha hxs
          · exact hx
      · rw [dedupFirstAux, if_neg ha]
        constructor
        · intro hx
          rcases List.mem_cons.mp hx with rfl | hx
          · exact ⟨List.mem_cons_self x l, ha⟩
          · obtain ⟨hl, hns⟩ := (ih (a :: seen) x).mp hx
            exact ⟨List.mem_cons_of_mem a hl,
              fun hs => hns (List.mem_cons_of_mem a hs)⟩
        · rintro ⟨hx, hxs⟩
          by_cases hxa : x = a
          · rw [hxa]
            exact List.mem_cons_self a _
          · rcases List.mem_cons.mp hx with h1 | h1
            · exact absurd h1 hxa
            · refine List.mem_cons_of_mem a ((ih (a :: seen) x).mpr ⟨h1, ?_⟩)
              intro hmem
              rcases List.mem_cons.mp hmem with h2 | h2
              · exact hxa h2
              · exact hxs h2

/-- The deduplication is a sublist of the input: retained elements keep
their relative order. -/
theorem dedupFirstAux_sublist (l : List String) :
    ∀ seen : List String, (dedupFirstAux l seen).Sublist l := by
  induction l with
  | nil => intro seen; simp [dedupFirstAux]
  | cons a l ih =>
      intro seen
      by_cases ha : a ∈ seen
      · rw [dedupFirstAux, if_pos ha]
        exact (ih seen).cons a
      · rw [dedupFirstAux, if_neg ha]
        exact (ih (a :: seen)).cons₂ a

/-- The deduplication lists elements in strictly increasing order of their
first occurrence in the input. -/
theorem dedupFirstAux_pairwise (l : List String) :
    ∀ seen : List String,
      (dedupFirstAux l seen).Pairwise
        (fun x y => firstIdx x l < firstIdx y l) := by
  induction l with
  | nil => intro seen; simp [dedupFirstAux]
  | cons a l ih =>
      intro seen
      by_cases ha : a ∈ seen
      · rw [dedupFirstAux, if_pos ha]
        refine (ih seen).imp_of_mem ?_
        intro x y hx hy hlt
        have hxa : a ≠ x := fun e =>
          ((mem_dedupFirstAux l seen x).mp hx).2 (by rw [← e]; exact ha)
        have hya : a ≠ y := fun e =>
          ((mem_dedupFirstAux l seen y).mp hy).2 (by rw [← e]; exact ha)
        rw [firstIdx_cons_ne x a l hxa, firstIdx_cons_ne y a l hya]
        exact Nat.succ_lt_succ hlt
      · rw [dedupFirstAux, if_neg ha]
        refine List.pairwise_cons.mpr ⟨?_, ?_⟩
        · intro y hy
          have hya : a ≠ y := fun e =>
            ((mem_dedupFirstAux l (a :: seen) y).mp hy).2
              (by rw [← e]; exact List.mem_cons_self a seen)
          rw [firstIdx_cons_self, firstIdx_cons_ne y a l hya]
          exact Nat.succ_pos _
        · refine (ih (a :: seen)).imp_of_mem ?_
          intro x y hx hy hlt
          have hxa : a ≠ x := fun e =>
            ((mem_dedupFirstAux l (a :: seen) x).mp hx).2
              (by rw [← e]; exact List.mem_cons_self a seen)
          have hya : a ≠ y := fun e =>
            ((mem_dedupFirstAux l (a :: seen) y).mp hy).2
              (by rw [← e]; exact List.mem_cons_self a seen)
          rw [firstIdx_cons_ne x a l hxa, firstIdx_cons_ne y a l hya]
          exact Nat.succ_lt_succ hlt

/-- Claim C9: the candidate-address list of the reachability fallback is the
resolved list with duplicates removed: it has no duplicates, it has exactly
the resolved addresses as elements, it is a sublist of the resolved list,
and its elements appear in strictly increasing order of first occurrence in
the resolved list (first-seen order preserved). -/
theorem resolved_candidates_dedup (l : List String) :
    (dedupFirst l).Nodup ∧
    (∀ x, x ∈ dedupFirst l ↔ x ∈ l) ∧
    (dedupFirst l).Sublist l ∧
    (dedupFirst l).Pairwise (fun x y => firstIdx x l < firstIdx y l) := by
  refine ⟨?_, ?_, dedupFirstAux_sublist l [], dedupFirstAux_pairwise l []⟩
  · exact (dedupFirstAux_pairwise l []).imp
      (fun hab heq => absurd (heq ▸ hab) (lt_irrefl _))
  · intro x
    rw [dedupFirst, mem_dedupFirstAux]
    simp

/-! ### Scan coordinator (cmd_homeports, src lines 182-201): interleaving
semantics of the semaphore-bounded gather of one scan_port task per port -/

/-- The port list scanned by cmd_homeports (src lines 166-169). -/
def COMMON_PORTS : List Int :=
  [21, 22, 23, 25, 53, 80, 110, 143, 161, 443, 445, 993, 995,
   3306, 3389, 5900, 8080, 25565, 32400]

/-- Where one scan_port task stands: before acquiring the semaphore, holding
the semaphore with its probe outstanding, or finished with its recorded
result (the semaphore released). -/
inductive ProbePhase
  | waiting
  | probing
  | finished (res : Bool)
deriving DecidableEq

/-- One scan_port task: its port and its phase. -/
structure ScanTask where
  port : Int
  phase : ProbePhase
deriving DecidableEq

/-- State of a scan: the free semaphore permits and the task list, one task
per port in input order (asyncio.gather keeps this order). -/
structure ScanState where
  sem : Nat
  tasks : List ScanTask
deriving DecidableEq

/-- Advance one task by one step.  A waiting task acquires a permit when one
is free and otherwise stays blocked; a probing task completes its probe
with the result given by res on its port, records it and releases its
permit; a finished task does nothing.  res p is the boolean result of the
scan_port body for port p (the open flag of the returned pair). -/
def stepTask (res : Int → Bool) (t : ScanTask) (sem : Nat) :
    ScanTask × Nat :=
  match t.phase with
  | ProbePhase.waiting =>
      if 0 < sem then (⟨t.port, ProbePhase.probing⟩, sem - 1) else (t, sem)
  | ProbePhase.probing =>
      (⟨t.port, ProbePhase.finished (res t.port)⟩, sem + 1)
  | ProbePhase.finished _ => (t, sem)

/-- Advance the i-th task of the task list by one step. -/
def scanAdvance (res : Int → Bool) :
    List ScanTask → Nat → Nat → List ScanTask × Nat
  | [], _, sem => ([], sem)
  | t :: ts, 0, sem =>
      ((stepTask res t sem).1 :: ts, (stepTask res t sem).2)
  | t :: ts, i + 1, sem =>
      (t :: (scanAdvance res ts i sem).1, (scanAdvance res ts i sem).2)

/-- One scheduler step: the scheduler picks task index i to advance. -/
def scanStep (res : Int → Bool) (st : ScanState) (i : Nat) : ScanState :=
  ⟨(scanAdvance res st.tasks i st.sem).2, (scanAdvance res st.tasks i st.sem).1⟩

/-- Run a whole schedule, one chosen task index per step. -/
def runScan (res : Int → Bool) (st : ScanState) : List Nat → ScanState
  | [] => st
  | i :: sched => runScan res (scanStep res st i) sched

/-- Initial state of cmd_homeports (src lines 186-187): a semaphore with
limit free permits and one waiting task per port, in port-list order. -/
def initScanState (limit : Nat) (ports : List Int) : ScanState :=
  ⟨limit, ports.map (fun p => ⟨p, ProbePhase.waiting⟩)⟩

/-- Whether a phase is the outstanding-probe phase. -/
def isProbing : ProbePhase → Bool
  | ProbePhase.probing => true
  | _ => false

/-- Whether a phase is finished. -/
def isFinished : ProbePhase → Bool
  | ProbePhase.finished _ => true
  | _ => false

/-- The recorded result of a finished phase. -/
def finishedRes : ProbePhase → Bool
  | ProbePhase.finished b => b
  | _ => false

/-- All tasks of the state have finished: the gather returns. -/
def scanAllDone (st : ScanState) : Bool :=
  st.tasks.all (fun t => isFinished t.phase)

/-- The list asyncio.gather returns: the value of each task, in task-list
order, regardless of the order in which tasks completed. -/
def scanGather (st : ScanState) : List (Int × Bool) :=
  st.tasks.map (fun t => (t.port, finishedRes t.phase))

/-- Number of simultaneously outstanding probes. -/
def countProbing (st : ScanState) : Nat :=
  st.tasks.countP (fun t => isProbing t.phase)

/-- Advancing a task keeps its port. -/
theorem stepTask_port (res : Int → Bool) (t : ScanTask) (sem : Nat) :
    (stepTask res t sem).1.port = t.port := by
  cases h : t.phase with
  | waiting =>
      by_cases hs : 0 < sem <;> simp [stepTask, h, hs]
  | probing => simp [stepTask, h]
  | finished b => simp [stepTask, h]

/-- Advancing a task records only the oracle result of its own port. -/
theorem stepTask_faithful (res : Int → Bool) (t : ScanTask) (sem : Nat)
    (b : Bool) (h : (stepTask res t sem).1.phase = ProbePhase.finished b)
    (hold : ∀ b₀, t.phase = ProbePhase.finished b₀ → b₀ = res t.port) :
    b = res t.port := by
  cases hp : t.phase with
  | waiting =>
      simp only [stepTask, hp] at h
      by_cases hs : 0 < sem <;> simp [hs, hp] at h
  | probing =>
      simp only [stepTask, hp] at h
      simp at h
      exact h.symm
  | finished b₀ =>
      simp only [stepTask, hp] at h
      simp at h
      rw [← h]
      exact hold b₀ hp

/-- Every finished task of the list records the oracle result of its own
port. -/
def tasksFaithful (res : Int → Bool) (ts : List ScanTask) : Prop :=
  ∀ t ∈ ts, ∀ b, t.phase = ProbePhase.finished b → b = res t.port

/-- Advancing any task leaves the port of every task in place. -/
theorem scanAdvance_port_map (res : Int → Bool) (ts : List ScanTask) :
    ∀ (i sem : Nat),
      (scanAdvance res ts i sem).1.map ScanTask.port =
        ts.map ScanTask.port := by
  induction ts with
  | nil => intro i sem; simp [scanAdvance]
  | cons t ts ih =>
      intro i sem
      cases i with
      | zero => simp [scanAdvance, stepTask_port]
      | succ i => simp [scanAdvance, ih i sem]

/-- Advancing any task preserves faithfulness of recorded results. -/
theorem scanAdvance_faithful (res : Int → Bool) (ts : List ScanTask) :
    ∀ (i sem : Nat), tasksFaithful res ts →
      tasksFaithful res (scanAdvance res ts i sem).1 := by
  induction ts with
  | nil => intro i sem hold; simpa [scanAdvance] using hold
  | cons t ts ih =>
      intro i sem hold
      cases i with
      | zero =>
          intro u hu b hb
          rcases List.mem_cons.mp hu with rfl | hmem
          · rw [stepTask_port]
            exact stepTask_faithful res t sem b hb
              (fun b₀ h₀ => hold t (List.mem_cons_self t ts) b₀ h₀)
          · exact hold u (List.mem_cons_of_mem t hmem) b hb
      | succ i =>
          intro u hu b hb
          rcases List.mem_cons.mp hu with rfl | hmem
          · exact hold u (List.mem_cons_self u ts) b hb
          · exact ih i sem
              (fun v hv => hold v (List.mem_cons_of_mem t hv)) u hmem b hb

/-- Advancing any task preserves the sum of free permits and outstanding
probes. -/
theorem scanAdvance_sem_count (res : Int → Bool) (ts : List ScanTask) :
    ∀ (i sem : Nat),
      (scanAdvance res ts i sem).2 +
          (scanAdvance res ts i sem).1.countP (fun t => isProbing t.phase) =
        sem + ts.countP (fun t => isProbing t.phase) := by
  induction ts with
  | nil => intro i sem; simp [scanAdvance]
  | cons t ts ih =>
      intro i sem
      cases i with
      | zero =>
          simp only [scanAdvance, List.countP_cons]
          cases hp : t.phase with
          | waiting =>
              by_cases hs : 0 < sem
              · simp only [stepTask, hp, hs, if_true]
                simp [isProbing]
                omega
              · simp [stepTask, hp, hs]
          | probing =>
              simp only [stepTask, hp]
              simp [isProbing]
              omega
          | finished b => simp [stepTask, hp]
      | succ i =>
          simp only [scanAdvance, List.countP_cons]
          rw [← Nat.add_assoc, ih i sem, Nat.add_assoc]

/-- Ports are preserved over a whole schedule. -/
theorem runScan_port_map (res : Int → Bool) (sched : List Nat) :
    ∀ st : ScanState,
      (runScan res st sched).tasks.map ScanTask.port =
        st.tasks.map ScanTask.port := by
  induction sched with
  | nil => intro st; rfl
  | cons i sched ih =>
      intro st
      rw [runScan, ih (scanStep res st i)]
      exact scanAdvance_port_map res st.tasks i st.sem

/-- Faithfulness of recorded results is preserved over a whole schedule. -/
theorem runScan_faithful (res : Int → Bool) (sched : List Nat) :
    ∀ st : ScanState, tasksFaithful res st.tasks →
      tasksFaithful res (runScan res st sched).tasks := by
  induction sched with
  | nil => intro st h; exact h
  | cons i sched ih =>
      intro st h
      rw [runScan]
      exact ih (scanStep res st i)
        (scanAdvance_faithful res st.tasks i st.sem h)

/-- The sum of free permits and outstanding probes is preserved over a whole
schedule. -/
theorem runScan_sem_count (res : Int → Bool) (sched : List Nat) :
    ∀ st : ScanState,
      (runScan res st sched).sem + countProbing (runScan res st sched) =
        st.sem + countProbing st := by
  induction sched with
  | nil => intro st; rfl
  | cons i sched ih =>
      intro st
      rw [runScan, ih (scanStep res st i)]
      exact scanAdvance_sem_count res st.tasks i st.sem

/-- Claim C2: however the scheduler interleaves the probes, once every task
of scan has finished, the gathered result list has exactly one entry per
input port, in input-port order, each carrying the probe result of its own
port: the output is independent of completion order. -/
theorem scan_results_in_port_order (res : Int → Bool) (limit : Nat)
    (ports : List Int) (sched : List Nat)
    (h : scanAllDone (runScan res (initScanState limit ports) sched) = true) :
    scanGather (runScan res (initScanState limit ports) sched) =
      ports.map (fun p => (p, res p)) ∧
    (scanGather (runScan res (initScanState limit ports) sched)).length =
      ports.length := by
  have hports : (runScan res (initScanState limit ports) sched).tasks.map
      ScanTask.port = ports := by
    rw [runScan_port_map]
    simp only [initScanState, List.map_map]
    exact List.map_id ports
  have hfaith : tasksFaithful res
      (runScan res (initScanState limit ports) sched).tasks := by
    apply runScan_faithful
    intro t ht b hb
    rcases List.mem_map.mp ht with ⟨p, hp, rfl⟩
    simp at hb
  have hEq : scanGather (runScan res (initScanState limit ports) sched) =
      ports.map (fun p => (p, res p)) := by
    have hgather : scanGather (runScan res (initScanState limit ports) sched)
        = (runScan res (initScanState limit ports) sched).tasks.map
            (fun t => (t.port, res t.port)) := by
      apply List.map_congr_left
      intro t ht
      have hdone : isFinished t.phase = true :=
        List.all_eq_true.mp h t ht
      cases hph : t.phase with
      | waiting => simp [isFinished, hph] at hdone
      | probing => simp [isFinished, hph] at hdone
      | finished b =>
          have hb := hfaith t ht b hph
          simp [finishedRes, hph, hb]
    rw [hgather]
    conv_rhs => rw [← hports]
    rw [List.map_map]
    rfl
  exact ⟨hEq, by rw [hEq, List.length_map]⟩

/-- Probe-result oracle of the concrete witness scan: only port 22 open. -/
def wScanRes : Int → Bool := fun p => decide (p = 22)

/-- Witness for claim C2: a concrete two-port scan under a concrete
completing schedule gathers one result per port in port order. -/
theorem scan_results_in_port_order_witness :
    scanGather (runScan wScanRes (initScanState 12 [80, 443]) [0, 0, 1, 1]) =
      [80, 443].map (fun p => (p, wScanRes p)) ∧
    (scanGather (runScan wScanRes (initScanState 12 [80, 443])
        [0, 0, 1, 1])).length = ([80, 443] : List Int).length :=
  scan_results_in_port_order wScanRes 12 [80, 443] [0, 0, 1, 1] (by decide)

/-- Claim C6: with the concurrency limit 12 of the code, at no reachable
point of any schedule are more than 12 probes simultaneously outstanding:
a waiting task only starts its probe when a semaphore permit is free. -/
theorem scan_concurrency_bounded (res : Int → Bool) (ports : List Int)
    (sched : List Nat) :
    countProbing (runScan res (initScanState 12 ports) sched) ≤ 12 := by
  have h := runScan_sem_count res sched (initScanState 12 ports)
  have h0 : countProbing (initScanState 12 ports) = 0 := by
    simp [countProbing, initScanState, List.countP_map, Function.comp,
      isProbing]
  have h1 : (initScanState 12 ports).sem = 12 := rfl
  omega
